import Mathlib

/-!
Verification of the raisin configuration-resolution pipeline.

This file gives a shallow embedding of the core of the raisin library
(`src/raisin/flags.hpp`, `src/raisin/fundamental_types.hpp`,
`src/raisin/sdl/window.hpp`, `src/raisin/window.hpp`,
`include/raisin/parsing.hpp`) and proves or refutes the specified
properties.  TOML documents are modelled as a tree of nodes; `expected`
values are modelled as `Except String`; machine integers are modelled as
`Int`/`Nat` with explicit reduction modulo powers of two where the source
performs a narrowing `static_cast`.
-/

namespace Raisin

/-- Character-level lowercase conversion, modelling `std::tolower` in the
default C locale as applied by `_strlower` (flags.hpp, parsing.hpp):
ASCII A-Z map to a-z, every other character is unchanged. -/
def char_tolower (c : Char) : Char :=
  if 65 ≤ c.toNat ∧ c.toNat ≤ 90 then Char.ofNat (c.toNat + 32) else c

/-- Model of `_strlower` (flags.hpp line 40): transform every character of
the string through `tolower`. -/
def strlower (s : String) : String :=
  String.mk (s.data.map char_tolower)

/-- Model of a parsed TOML node (`toml::node`): the tagged union of the
leaf kinds used by the library plus arrays and tables.  Tables are
association lists keyed by strings, looked up first-match (toml++ tables
have unique keys). -/
inductive Node where
  | boolean (b : Bool)
  | integer (n : Int)
  | string (s : String)
  | array (elems : List Node)
  | table (entries : List (String × Node))

/-- The kind tag of a node (`toml::node_type`). -/
inductive NodeKind where
  | boolean
  | integer
  | string
  | array
  | table
deriving DecidableEq, BEq

/-- Kind of a node. -/
def Node.kind : Node → NodeKind
  | .boolean _ => .boolean
  | .integer _ => .integer
  | .string _ => .string
  | .array _ => .array
  | .table _ => .table

/-- A TOML table: the entry list of a `toml::table`. -/
abbrev Table := List (String × Node)

/-- Key lookup in a table (`toml::table::operator[]` / `find`). -/
def lookup_key (entries : Table) (key : String) : Option Node :=
  (entries.find? (fun kv => kv.fst == key)).map Prod.snd

/-- Splitting a dotted path into its segments, as `toml::table::at_path`
does for plain (non-index) paths: split the character list on dots. -/
def split_dots : List Char → List String
  | [] => [""]
  | c :: rest =>
    let tail := split_dots rest
    if c = '.' then "" :: tail
    else
      match tail with
      | [] => [String.mk [c]]
      | s :: ss => String.mk (c :: s.data) :: ss

/-- Node resolution along a segment list: descend through tables by key;
a missing key or a non-table intermediate yields `none`. -/
def node_at : Node → List String → Option Node
  | node, [] => some node
  | .table entries, key :: keys =>
    match lookup_key entries key with
    | some child => node_at child keys
    | none => none
  | _, _ :: _ => none

/-- Model of `toml::table::at_path` for dotted key paths. -/
def at_path (table : Table) (path : String) : Option Node :=
  node_at (.table table) (split_dots path.data)

/-- Model of `validate_variable` (fundamental_types.hpp lines 100-111):
fail with a descriptive message when the path resolves to nothing,
otherwise pass the table through. -/
def validate_variable (table : Table) (variable_path : String) :
    Except String Table :=
  if (at_path table variable_path).isNone then
    .error ("Expected the variable " ++ variable_path ++
      " to exist, but it doesn't")
  else
    .ok table

/-- Model of `subtable` (fundamental_types.hpp lines 121-137). -/
def subtable (table : Table) (variable_path : String) :
    Except String Table :=
  match validate_variable table variable_path with
  | .error e => .error e
  | .ok _ =>
    match at_path table variable_path with
    | some (.table sub) => .ok sub
    | _ =>
      .error ("Expecting " ++ variable_path ++
        " to be a table, but it wasn't")

/-- A native leaf type in the sense of fundamental_types.hpp: the name
reported by `typeid(value_t).name()` and the extraction performed by
`toml::node::value<value_t>()`, which succeeds exactly on nodes of the
one kind mapped to the type (per the `node_type` trait), with the range
check toml++ applies for narrow integer types. -/
structure NativeType (α : Type) where
  typeName : String
  fromNode : Node → Option α

/-- Model of the strict typed loader `load_value<value_t>`
(fundamental_types.hpp lines 156-173). -/
def load_value (T : NativeType α) (table : Table) (variable_path : String) :
    Except String α :=
  match validate_variable table variable_path with
  | .error e => .error e
  | .ok _ =>
    match (at_path table variable_path).bind T.fromNode with
    | some v => .ok v
    | none =>
      .error ("Expecting " ++ variable_path ++ " to have type " ++
        T.typeName ++ ", but it doesn't")

/-- `std::string` as a native type (GCC `typeid` name). -/
def stringType : NativeType String :=
  { typeName := "NSt7__cxx1112basic_stringIcSt11char_traitsIcESaIcEEE"
    fromNode := fun n => match n with
      | .string s => some s
      | _ => none }

/-- `std::int64_t` as a native type. -/
def i64Type : NativeType Int :=
  { typeName := "l"
    fromNode := fun n => match n with
      | .integer v => some v
      | _ => none }

/-- `bool` as a native type. -/
def boolType : NativeType Bool :=
  { typeName := "b"
    fromNode := fun n => match n with
      | .boolean b => some b
      | _ => none }

/-- `std::uint32_t` as a native type: toml++ fails the extraction when
the stored 64-bit integer does not fit the target type. -/
def u32Type : NativeType Nat :=
  { typeName := "j"
    fromNode := fun n => match n with
      | .integer v => if 0 ≤ v ∧ v < 4294967296 then some v.toNat else none
      | _ => none }

/-- `int` (32-bit) as a native type, with toml++ range check. -/
def i32Type : NativeType Int :=
  { typeName := "i"
    fromNode := fun n => match n with
      | .integer v =>
        if -2147483648 ≤ v ∧ v < 2147483648 then some v else none
      | _ => none }

/-- Model of `load_value_or_else` (fundamental_types.hpp lines 216-226):
the strict load, with the default substituted on any failure. -/
def load_value_or_else (T : NativeType α) (table : Table)
    (variable_path : String) (default_val : α) : α :=
  match load_value T table variable_path with
  | .error _ => default_val
  | .ok v => v

/-- Model of `load_array` (fundamental_types.hpp lines 270-308).  The
caller storage of capacity `capacity` is modelled by returning the list
of elements actually written; the returned iterator of the source is the
write position after the last written element, i.e. the length of that
list.  The homogeneity check of the source is commented out, so none is
performed here; `toml::array::for_each` invokes the typed callback only
on elements of the matching kind, hence the `filterMap`. -/
def load_array (dec : Node → Option α) (table : Table)
    (variable_path : String) (capacity : Nat) : Except String (List α) :=
  match validate_variable table variable_path with
  | .error e => .error e
  | .ok _ =>
    match at_path table variable_path with
    | some (.array elems) =>
      if elems.length > capacity then
        .error (variable_path ++ " can have at most " ++ toString capacity ++
          " items, but it has " ++ toString elems.length)
      else
        .ok (elems.filterMap dec)
    | _ => .error (variable_path ++ " must be an array")

/-- Element decoder for string arrays: `toml::value<std::string>`
elements are visited, others skipped. -/
def strDec : Node → Option String
  | .string s => some s
  | _ => none

/-- Element decoder for `std::uint8_t` arrays: integer elements are
visited and narrowed by `static_cast<std::uint8_t>`, i.e. reduced modulo
2^8; other elements are skipped. -/
def u8Dec : Node → Option Nat
  | .integer n => some ((n % 256).toNat)
  | _ => none

/-- Fuelled model of `std::ranges::partition` as it executes on the
bidirectional/random-access ranges the library passes it (the standard
n/2-swap algorithm used by libstdc++ and libc++; the C++ standard
specifies only the partition property, not stability).  The returned
value is the permuted sequence together with the partition point: the
scan from the front skips the longest prefix satisfying `p`; if nothing
remains the sequence is fully partitioned; otherwise the scan from the
back skips the longest suffix failing `p`; if the two scans meet, the
front scan position is the partition point; otherwise the two elements
found are swapped and the algorithm continues strictly between them.
The fuel argument only drives the recursion; the length of a list is
always sufficient fuel (see `hoarePartition`). -/
def hoareGo (p : α → Bool) : Nat → List α → List α × Nat
  | 0, xs => (xs, xs.length)
  | fuel + 1, xs =>
    match xs.dropWhile p with
    | [] => (xs, xs.length)
    | x :: rest =>
      match (rest.reverse.dropWhile (fun a => !p a)) with
      | [] => (xs, (xs.takeWhile p).length)
      | y :: mid =>
        let inner := hoareGo p fuel mid.reverse
        (xs.takeWhile p ++ y :: (inner.1 ++
           x :: (rest.reverse.takeWhile (fun a => !p a)).reverse),
         (xs.takeWhile p).length + 1 + inner.2)

/-- Model of `std::ranges::partition` on a sequence: run the algorithm
with sufficient fuel. -/
def hoarePartition (p : α → Bool) (xs : List α) : List α × Nat :=
  hoareGo p xs.length xs

/-- Result of `parse_flags` (flags.hpp lines 50-53): the combined flag
value and the borrowed subrange of invalid names (here the materialized
suffix of the partitioned sequence). -/
structure FlagResult where
  value : Nat
  invalid_names : List String
deriving DecidableEq

/-- Model of the predicate/projection overload of `parse_flags`
(flags.hpp lines 77-93): lowercase all names in place, partition the
invalid names to the end with `std::ranges::partition`, and join the
valid prefix with `std::transform_reduce` over bitwise or, seeded at
zero. -/
def parse_flags (flag_names : List String) (is_flag : String → Bool)
    (as_flag : String → Nat) : FlagResult :=
  let lowered := flag_names.map strlower
  let parted := hoarePartition is_flag lowered
  { value := ((parted.1.take parted.2).map as_flag).foldl Nat.lor 0
    invalid_names := parted.1.drop parted.2 }

/-- A flag table: name-to-bit association with unique keys
(`std::unordered_map<std::string, std::uint32_t>`); `find` is modelled
by first-match lookup. -/
abbrev FlagTable := List (String × Nat)

/-- Lookup in a flag table (`flagmap.find`). -/
def find_flag (flagmap : FlagTable) (name : String) : Option Nat :=
  (flagmap.find? (fun kv => kv.fst == name)).map Prod.snd

/-- Model of the lookup-table overload of `parse_flags` (flags.hpp lines
106-118): membership as the predicate, `find(name)->second` as the
projection (only invoked on names found in the table). -/
def parse_flags_table (flag_names : List String) (flagmap : FlagTable) :
    FlagResult :=
  parse_flags flag_names
    (fun name => (find_flag flagmap name).isSome)
    (fun name => (find_flag flagmap name).getD 0)

/-- Model of `load_flags` with an invalid-name sink (flags.hpp lines
125-145): load up to `max_flags` names with `load_array`, parse them,
then `std::ranges::copy` the whole invalid subrange into the sink.  The
second component is the sequence of names written to the caller-supplied
sink (nothing is written when the array load fails). -/
def load_flags (max_flags : Nat) (table : Table) (variable_path : String)
    (flagmap : FlagTable) : Except String Nat × List String :=
  match load_array strDec table variable_path max_flags with
  | .error e => (.error e, [])
  | .ok flag_names =>
    let result := parse_flags_table flag_names flagmap
    (.ok result.value, result.invalid_names)

/-- The default bound on loaded flag names, `limits::max_flags`
(flags.hpp line 37). -/
def max_flags : Nat := 32

/-- The SDL window-flag table of `load_window_flags`
(sdl/window.hpp lines 58-73), with the numeric values of the SDL
constants. -/
def window_flag_table : FlagTable :=
  [("fullscreen", 0x00000001),
   ("fullscreen-desktop", 0x00001001),
   ("opengl", 0x00000002),
   ("vulkan", 0x10000000),
   ("metal", 0x20000000),
   ("hidden", 0x00000008),
   ("borderless", 0x00000010),
   ("resizable", 0x00000020),
   ("minimized", 0x00000040),
   ("maximized", 0x00000080),
   ("input-grabbed", 0x00000100),
   ("allow-high-dpi", 0x00002000),
   ("shown", 0x00000004)]

/-- The `SDL_WINDOWPOS_UNDEFINED` sentinel (0x1FFF0000) used as the
default for unspecified window positions. -/
def SDL_WINDOWPOS_UNDEFINED : Int := 0x1FFF0000

/-- The arguments `load_window` / `make_window_from_config` pass to
`SDL_CreateWindow` (window creation itself is the out-of-scope
runtime). -/
structure CreateWindowArgs where
  title : String
  x : Int
  y : Int
  width : Nat
  height : Nat
  flags : Nat
deriving DecidableEq

/-- Model of the pipeline body of `load_window` (sdl/window.hpp lines
141-150) applied to a table: narrow to the subtable at `variable_path`,
then `and_then` the strict loads of `title`, `width` and `height`, then
`and_then` the flag load at `"flags"` (via `load_window_flags_into`,
i.e. `_load_flags` around `load_flags` with the window flag table),
then `map` the defaulting loads of `x` and `y`.  On success the
populated outputs are the arguments handed to `SDL_CreateWindow`; the
second component is the sequence of invalid flag names written to the
caller-supplied sink. -/
def load_window (variable_path : String) (table : Table) :
    Except String CreateWindowArgs × List String :=
  match subtable table variable_path with
  | .error e => (.error e, [])
  | .ok w =>
    match load_value stringType w "title" with
    | .error e => (.error e, [])
    | .ok title =>
      match load_value u32Type w "width" with
      | .error e => (.error e, [])
      | .ok width =>
        match load_value u32Type w "height" with
        | .error e => (.error e, [])
        | .ok height =>
          match load_flags max_flags w "flags" window_flag_table with
          | (.error e, written) => (.error e, written)
          | (.ok flags, written) =>
            let x := load_value_or_else i32Type w "x" SDL_WINDOWPOS_UNDEFINED
            let y := load_value_or_else i32Type w "y" SDL_WINDOWPOS_UNDEFINED
            (.ok { title := title, x := x, y := y,
                   width := width, height := height, flags := flags },
             written)

/-- Model of `expected::and_then` as used by the pipeline chains
(e.g. load_window, sdl/window.hpp lines 141-150): a failure is returned
unchanged, otherwise the fallible step runs on the current value. -/
def and_then (e : Except String α) (step : α → Except String β) :
    Except String β :=
  match e with
  | .error msg => .error msg
  | .ok a => step a

/-- Model of `expected::map` with an infallible step (the `load_or_else`
steps of the chains): a failure is returned unchanged, otherwise the
step result is rewrapped as a success. -/
def map_step (e : Except String α) (step : α → β) : Except String β :=
  match e with
  | .error msg => .error msg
  | .ok a => .ok (step a)

/-- A pipeline step: either a fallible `and_then` step or an infallible
`map` step, each from tables to tables as in the source chains. -/
inductive PipelineStep (α : Type) where
  | fallible (step : α → Except String α)
  | infallible (step : α → α)

/-- Application of one pipeline step to the current chained value. -/
def run_step (e : Except String α) : PipelineStep α → Except String α
  | .fallible step => and_then e step
  | .infallible step => map_step e step

/-- A chain of `and_then`/`map` steps threaded left to right, as the
source composes them with method chaining. -/
def run_chain (e : Except String α) (steps : List (PipelineStep α)) :
    Except String α :=
  steps.foldl run_step e

/-- Model of the vector-based `parse_flags` overload of
include/raisin/parsing.hpp (lines 53-72): lowercase the names, copy the
invalid ones in order into the sink with `std::ranges::copy_if` (stable,
unlike the partition-based variant), and accumulate the valid ones with
bitwise or seeded at zero.  The first component is the returned flag
value, the second the names written to the sink. -/
def parse_flags_vec (flag_names : List String) (is_flag : String → Bool)
    (as_flag : String → Nat) : Nat × List String :=
  let lowered := flag_names.map strlower
  (((lowered.filter is_flag).map as_flag).foldl Nat.lor 0,
   lowered.filter (fun n => !is_flag n))

/-- Model of `load_flag_names` (include/raisin/parsing.hpp lines 85-119)
applied to the already-parsed table (file parsing is the out-of-scope
external parser): a missing path yields zero names; a non-array node or
an array that is not homogeneous in strings is an error (toml++ treats
an empty array as not homogeneous); otherwise the string elements are
written out. -/
def load_flag_names (table : Table) (variable_path : String) :
    Except String (List String) :=
  match at_path table variable_path with
  | none => .ok []
  | some (.array elems) =>
    if !elems.isEmpty && elems.all (fun e => e.kind == NodeKind.string) then
      .ok (elems.filterMap strDec)
    else
      .error ("all subsytem names in " ++ variable_path ++ " " ++
        "must be strings")
  | some _ => .error (variable_path ++ " must be an array")

/-- Model of `load_window_flags` of src/raisin/window.hpp (lines 53-84):
read `window.flags` from the config, then resolve them through the
vector-based `parse_flags` against the window flag table.  The second
component is the sequence of invalid names written to the sink. -/
def load_window_flags_cfg (table : Table) : Except String Nat × List String :=
  match load_flag_names table "window.flags" with
  | .error e => (.error e, [])
  | .ok names =>
    let r := parse_flags_vec names
      (fun n => (find_flag window_flag_table n).isSome)
      (fun n => (find_flag window_flag_table n).getD 0)
    (.ok r.1, r.2)

/-- Wrap of `static_cast<int>` from a 64-bit integer: reduction into the
signed 32-bit range. -/
def to_int32 (n : Int) : Int :=
  (n + 2147483648) % 4294967296 - 2147483648

/-- Wrap of `static_cast<std::uint32_t>` from a 64-bit integer:
reduction modulo 2^32. -/
def to_uint32 (n : Int) : Nat :=
  (n % 4294967296).toNat

/-- The integer payload of `window["x"].as_integer()->get()`.  When the
key is absent or not an integer the source dereferences a null pointer
(undefined behavior); that unreachable-under-our-hypotheses case is
modelled as 0. -/
def as_integer_get (w : Table) (key : String) : Int :=
  match lookup_key w key with
  | some (.integer n) => n
  | _ => 0

/-- Model of `make_window_from_config` (src/raisin/window.hpp lines
92-172) applied to the parsed config table: resolve the window flags,
then validate and read `title`, `width`, `height` directly from the
`window` table, defaulting `x`/`y` to `SDL_WINDOWPOS_UNDEFINED` when
absent — and, exactly as the source does, reading the `"x"` key for the
`y` coordinate when a `y` integer is present (line 160).  The result is
the argument tuple handed to `SDL_CreateWindow`. -/
def make_window_from_config (config_path : String) (table : Table) :
    Except String CreateWindowArgs :=
  match (load_window_flags_cfg table).1 with
  | .error e => .error e
  | .ok flags =>
    match lookup_key table "window" with
    | none => .error ("config at " ++ config_path ++ "has no window settings")
    | some (.table w) =>
      match lookup_key w "title" with
      | none => .error "window config must have a title!"
      | some (.string title) =>
        match lookup_key w "width" with
        | none => .error "window config must have a width!"
        | some (.integer iw) =>
          match lookup_key w "height" with
          | none => .error "window config must have a height!"
          | some (.integer ih) =>
            match lookup_key w "x" with
            | some (.integer nx) =>
              match lookup_key w "y" with
              | some (.integer _) =>
                .ok { title := title,
                      x := to_int32 nx,
                      y := to_int32 (as_integer_get w "x"),
                      width := to_uint32 iw, height := to_uint32 ih,
                      flags := flags }
              | none =>
                .ok { title := title,
                      x := to_int32 nx,
                      y := SDL_WINDOWPOS_UNDEFINED,
                      width := to_uint32 iw, height := to_uint32 ih,
                      flags := flags }
              | some _ => .error "window.y must be an integer"
            | none =>
              match lookup_key w "y" with
              | some (.integer _) =>
                .ok { title := title,
                      x := SDL_WINDOWPOS_UNDEFINED,
                      y := to_int32 (as_integer_get w "x"),
                      width := to_uint32 iw, height := to_uint32 ih,
                      flags := flags }
              | none =>
                .ok { title := title,
                      x := SDL_WINDOWPOS_UNDEFINED,
                      y := SDL_WINDOWPOS_UNDEFINED,
                      width := to_uint32 iw, height := to_uint32 ih,
                      flags := flags }
              | some _ => .error "window.y must be an integer"
            | some _ => .error "window.x must be an integer"
          | some _ => .error "window.height must be an integer"
        | some _ => .error "window.width must be an integer"
      | some _ => .error "window.title must be a string!"
    | some _ => .error "window config settings must be a table!"

/-- An `SDL_Color`: four unsigned 8-bit channels, exposed by color.hpp
as a contiguous range of four bytes. -/
structure SDL_Color where
  r : Nat
  g : Nat
  b : Nat
  a : Nat
deriving DecidableEq

/-- Model of the `load_value<SDL_Color>` specialization (sdl/color.hpp
lines 61-72): `load_array` into the four bytes of a stack `SDL_Color`
(capacity 4).  Channels the array load does not write keep the
indeterminate value of the uninitialized stack object, modelled as 0. -/
def load_value_SDL_Color (table : Table) (variable_path : String) :
    Except String SDL_Color :=
  match load_array u8Dec table variable_path 4 with
  | .error e => .error e
  | .ok ws =>
    .ok { r := ws.getD 0 0, g := ws.getD 1 0,
          b := ws.getD 2 0, a := ws.getD 3 0 }

/-- Head of a non-empty `dropWhile` result fails the predicate. -/
theorem dropWhile_head_false {p : α → Bool} :
    ∀ {l : List α} {x : α} {t : List α},
      l.dropWhile p = x :: t → p x = false := by
  intro l
  induction l with
  | nil => intro x t h; simp at h
  | cons a l ih =>
    intro x t h
    rw [List.dropWhile_cons] at h
    by_cases hp : p a
    · rw [if_pos hp] at h
      exact ih h
    · rw [if_neg hp] at h
      cases h
      simpa using hp

/-- Taking up to a point inside the middle block of the partitioned
shape keeps the leading block, the swapped-in element, and the taken
part of the middle block. -/
theorem take_middle (ts A B : List α) (y x : α) (k : Nat)
    (hk : k ≤ A.length) :
    (ts ++ y :: (A ++ x :: B)).take (ts.length + 1 + k) =
      ts ++ y :: A.take k := by
  have h1 : ts ++ y :: (A ++ x :: B) = (ts ++ [y]) ++ (A ++ x :: B) := by
    simp
  have h2 : ts.length + 1 + k = (ts ++ [y]).length + k := by
    simp
  rw [h1, h2, List.take_append k, List.take_append_of_le_length hk]
  simp

/-- Dropping to a point inside the middle block of the partitioned shape
keeps the rest of the middle block, the swapped-out element, and the
trailing block. -/
theorem drop_middle (ts A B : List α) (y x : α) (k : Nat)
    (hk : k ≤ A.length) :
    (ts ++ y :: (A ++ x :: B)).drop (ts.length + 1 + k) =
      A.drop k ++ x :: B := by
  have h1 : ts ++ y :: (A ++ x :: B) = (ts ++ [y]) ++ (A ++ x :: B) := by
    simp
  have h2 : ts.length + 1 + k = (ts ++ [y]).length + k := by
    simp
  rw [h1, h2, List.drop_append k, List.drop_append_of_le_length hk]

/-- Main invariants of the modelled `std::ranges::partition`: with
sufficient fuel, the partition point is in bounds, the prefix before it
is a permutation of the elements satisfying the predicate, and the
suffix from it is a permutation of the elements failing the predicate.
Stability is deliberately not claimed: the algorithm does not provide
it. -/
theorem hoareGo_spec (p : α → Bool) :
    ∀ fuel (xs : List α), xs.length ≤ fuel →
      (hoareGo p fuel xs).2 ≤ (hoareGo p fuel xs).1.length ∧
      ((hoareGo p fuel xs).1.take (hoareGo p fuel xs).2).Perm
        (xs.filter p) ∧
      ((hoareGo p fuel xs).1.drop (hoareGo p fuel xs).2).Perm
        (xs.filter (fun a => !p a)) := by
  intro fuel
  induction fuel with
  | zero =>
    intro xs h
    have hxs : xs = [] := List.length_eq_zero.mp (Nat.le_zero.mp h)
    subst hxs
    simp [hoareGo]
  | succ fuel ih =>
    intro xs h
    rcases h1 : xs.dropWhile p with _ | ⟨x, rest⟩
    · have hall : ∀ a ∈ xs, p a := List.dropWhile_eq_nil_iff.mp h1
      have hf1 : xs.filter p = xs := List.filter_eq_self.mpr hall
      have hf2 : xs.filter (fun a => !p a) = [] := by
        rw [List.filter_eq_nil_iff]
        intro a ha
        simp [hall a ha]
      simp [hoareGo, h1, hf1, hf2]
    · have px : p x = false := dropWhile_head_false h1
      set ts := xs.takeWhile p with hts
      have hxs : xs = ts ++ (x :: rest) := by
        rw [hts, ← h1, List.takeWhile_append_dropWhile]
      have htsall : ∀ a ∈ ts, p a = true :=
        fun a ha => List.mem_takeWhile_imp ha
      have hts_filter : ts.filter p = ts := List.filter_eq_self.mpr htsall
      have hts_filter_not : ts.filter (fun a => !p a) = [] := by
        rw [List.filter_eq_nil_iff]
        intro a ha
        simp [htsall a ha]
      rcases h2 : rest.reverse.dropWhile (fun a => !p a) with _ | ⟨y, mid⟩
      · -- everything after the front scan fails the predicate
        have hrest : ∀ a ∈ rest, p a = false := by
          intro a ha
          have := List.dropWhile_eq_nil_iff.mp h2 a (List.mem_reverse.mpr ha)
          simpa using this
        have hrest_filter : rest.filter p = [] := by
          rw [List.filter_eq_nil_iff]
          intro a ha
          simp [hrest a ha]
        have hrest_filter_not : rest.filter (fun a => !p a) = rest :=
          List.filter_eq_self.mpr (by intro a ha; simp [hrest a ha])
        have hf1 : xs.filter p = ts := by
          conv_lhs => rw [hxs]
          rw [List.filter_append, hts_filter,
            List.filter_cons_of_neg (by simp [px]), hrest_filter]
          simp
        have hf2 : xs.filter (fun a => !p a) = x :: rest := by
          conv_lhs => rw [hxs]
          rw [List.filter_append, hts_filter_not,
            List.filter_cons_of_pos (by simp [px]), hrest_filter_not]
          simp
        have htake : xs.take ts.length = ts := by
          conv_lhs => rw [hxs]
          exact List.take_left _ _
        have hdrop : xs.drop ts.length = x :: rest := by
          conv_lhs => rw [hxs]
          exact List.drop_left _ _
        have hlen : ts.length ≤ xs.length := by
          conv_rhs => rw [hxs]
          simp
        simp only [hoareGo, h1, h2]
        exact ⟨hlen, by rw [htake, hf1], by rw [hdrop, hf2]⟩
      · -- a swap happens; recurse on the strictly smaller middle block
        have py : p y = true := by
          have := dropWhile_head_false h2
          simpa using this
        set rF := rest.reverse.takeWhile (fun a => !p a) with hrFdef
        have hback : rest.reverse = rF ++ (y :: mid) := by
          rw [hrFdef, ← h2, List.takeWhile_append_dropWhile]
        have hrFall : ∀ a ∈ rF, p a = false := by
          intro a ha
          have := List.mem_takeWhile_imp ha
          simpa using this
        have hrF_filter : rF.reverse.filter p = [] := by
          rw [List.filter_eq_nil_iff]
          intro a ha
          simp [hrFall a (List.mem_reverse.mp ha)]
        have hrF_filter_not : rF.reverse.filter (fun a => !p a) =
            rF.reverse :=
          List.filter_eq_self.mpr
            (by intro a ha; simp [hrFall a (List.mem_reverse.mp ha)])
        have hrest : rest = mid.reverse ++ y :: rF.reverse := by
          have hr := congrArg List.reverse hback
          rw [List.reverse_reverse] at hr
          rw [hr]
          simp
        have hrlen : rest.length = mid.length + 1 + rF.length := by
          conv_lhs => rw [hrest]
          simp
          omega
        have hxslen : xs.length = ts.length + 1 + rest.length := by
          conv_lhs => rw [hxs]
          simp
          omega
        have hfuel : mid.reverse.length ≤ fuel := by
          simp only [List.length_reverse]
          omega
        obtain ⟨ihlen, ihtake, ihdrop⟩ := ih mid.reverse hfuel
        have hf1 : xs.filter p = ts ++ (mid.reverse.filter p ++ [y]) := by
          conv_lhs => rw [hxs, hrest]
          rw [List.filter_append, hts_filter,
            List.filter_cons_of_neg (by simp [px]), List.filter_append,
            List.filter_cons_of_pos (by simp [py]), hrF_filter]
        have hf2 : xs.filter (fun a => !p a) =
            x :: (mid.reverse.filter (fun a => !p a) ++ rF.reverse) := by
          conv_lhs => rw [hxs, hrest]
          rw [List.filter_append, hts_filter_not,
            List.filter_cons_of_pos (by simp [px]), List.filter_append,
            List.filter_cons_of_neg (by simp [py]), hrF_filter_not]
          simp
        simp only [hoareGo, h1, h2]
        refine ⟨?_, ?_, ?_⟩
        · simp
          omega
        · rw [take_middle _ _ _ _ _ _ ihlen, hf1]
          refine List.Perm.append_left _ ?_
          exact (ihtake.cons y).trans
            (List.perm_append_singleton y (mid.reverse.filter p)).symm
        · rw [drop_middle _ _ _ _ _ _ ihlen, hf2]
          have e1 : (hoareGo p fuel mid.reverse).1.drop
                (hoareGo p fuel mid.reverse).2 ++ x :: rF.reverse =
              ((hoareGo p fuel mid.reverse).1.drop
                (hoareGo p fuel mid.reverse).2 ++ [x]) ++ rF.reverse := by
            simp
          rw [e1]
          refine List.Perm.trans
            (List.Perm.append_right _
              (List.perm_append_singleton x _)) ?_
          rw [List.cons_append]
          exact (ihdrop.append_right _).cons x

/-- The list length is sufficient fuel: the partition point of
`hoarePartition` is in bounds, its prefix is a permutation of the
elements satisfying the predicate and its suffix a permutation of those
failing it. -/
theorem hoarePartition_spec (p : α → Bool) (xs : List α) :
    (hoarePartition p xs).2 ≤ (hoarePartition p xs).1.length ∧
    ((hoarePartition p xs).1.take (hoarePartition p xs).2).Perm
      (xs.filter p) ∧
    ((hoarePartition p xs).1.drop (hoarePartition p xs).2).Perm
      (xs.filter (fun a => !p a)) :=
  hoareGo_spec p xs.length xs (Nat.le_refl _)

/-- Bitwise or on naturals is right-commutative, so left folds over
permuted lists agree. -/
instance : RightCommutative Nat.lor :=
  ⟨fun a b₁ b₂ => by
    show a ||| b₁ ||| b₂ = a ||| b₂ ||| b₁
    rw [Nat.lor_assoc, Nat.lor_assoc, Nat.lor_comm b₁ b₂]⟩

/-- Lists of elements all decoding successfully keep their length under
`filterMap`. -/
theorem filterMap_length_of_isSome {α β : Type} (dec : α → Option β) :
    ∀ (l : List α), (∀ e ∈ l, (dec e).isSome) →
      (l.filterMap dec).length = l.length := by
  intro l
  induction l with
  | nil => intro _; rfl
  | cons e l ih =>
    intro h
    rcases ho : dec e with _ | v
    · exact absurd (h e (List.mem_cons_self e l)) (by simp [ho])
    · simp [List.filterMap_cons, ho,
        ih (fun x hx => h x (List.mem_cons_of_mem e hx))]

/-- C1: for every name list N and flag table F, `parse_flags(N, F)`
returns a bitmask equal to the bitwise or, seeded at zero, of `F[n]`
for each name n in N that after case-folding to lowercase is a key of
F; in particular resolving ["VIDEO"] and ["video"] agree whenever F has
the key "video". -/
theorem parse_flags_bitmask_spec :
    (∀ (N : List String) (F : FlagTable),
      (parse_flags_table N F).value =
        (((N.map strlower).filter
            (fun n => (find_flag F n).isSome)).map
          (fun n => (find_flag F n).getD 0)).foldl Nat.lor 0) ∧
    (∀ F : FlagTable, (find_flag F "video").isSome →
      parse_flags_table ["VIDEO"] F = parse_flags_table ["video"] F) := by
  constructor
  · intro N F
    simp only [parse_flags_table, parse_flags]
    have hperm := (hoarePartition_spec
      (fun n => (find_flag F n).isSome) (N.map strlower)).2.1
    exact (hperm.map _).foldl_eq 0
  · intro F _
    have h : (["VIDEO"].map strlower) = (["video"].map strlower) := by
      decide
    simp only [parse_flags_table, parse_flags]
    rw [h]

/-- Witness for C1 at a concrete flag table holding the key "video". -/
theorem parse_flags_bitmask_spec_witness :
    parse_flags_table ["VIDEO"] [("video", 32)] =
      parse_flags_table ["video"] [("video", 32)] :=
  parse_flags_bitmask_spec.2 [("video", 32)] (by decide)

/-- C2 counterexample: `load_value<std::uint32_t>` (the `width` and
`height` loads of the window pipeline) applied to a present node of the
kind mapped to the type — an integer — storing 2^32 does not return the
stored value: toml++ range-checks narrow integer extraction, so the
load fails with the type-mismatch message. -/
theorem load_value_out_of_range_counterexample :
    (at_path [("width", Node.integer 4294967296)] "width").map Node.kind =
      some NodeKind.integer ∧
    load_value u32Type [("width", Node.integer 4294967296)] "width" =
      .error "Expecting width to have type j, but it doesn't" :=
  ⟨rfl, rfl⟩

/-- C2 (amended): range-aware trichotomy of the strict typed loader
`load_value`, over all the instantiations the program uses (string,
64-bit integer, bool, `std::uint32_t`, `int`): an absent path fails
with the message naming the missing path; a present node of a kind
other than the one mapped to the type fails with the type-mismatch
message naming the path and the expected type; a present node of the
mapped kind returns exactly the stored value when that value is
representable in the type — always, for string, 64-bit integer and
bool — while for the narrow integer types a stored integer outside the
range of the type fails with the same type-mismatch message instead of
returning the value. -/
theorem load_value_trichotomy_ranged (t : Table) (path : String) :
    (at_path t path = none →
      load_value stringType t path =
        .error ("Expected the variable " ++ path ++
          " to exist, but it doesn't") ∧
      load_value i64Type t path =
        .error ("Expected the variable " ++ path ++
          " to exist, but it doesn't") ∧
      load_value boolType t path =
        .error ("Expected the variable " ++ path ++
          " to exist, but it doesn't") ∧
      load_value u32Type t path =
        .error ("Expected the variable " ++ path ++
          " to exist, but it doesn't") ∧
      load_value i32Type t path =
        .error ("Expected the variable " ++ path ++
          " to exist, but it doesn't")) ∧
    ((∀ s, at_path t path = some (Node.string s) →
        load_value stringType t path = .ok s) ∧
     (∀ n, at_path t path = some (Node.integer n) →
        load_value i64Type t path = .ok n) ∧
     (∀ b, at_path t path = some (Node.boolean b) →
        load_value boolType t path = .ok b) ∧
     (∀ n, at_path t path = some (Node.integer n) →
        0 ≤ n → n < 4294967296 →
        load_value u32Type t path = .ok n.toNat) ∧
     (∀ n, at_path t path = some (Node.integer n) →
        -2147483648 ≤ n → n < 2147483648 →
        load_value i32Type t path = .ok n)) ∧
    ((∀ node, at_path t path = some node →
        node.kind ≠ NodeKind.string →
        load_value stringType t path =
          .error ("Expecting " ++ path ++ " to have type " ++
            stringType.typeName ++ ", but it doesn't")) ∧
     (∀ node, at_path t path = some node →
        node.kind ≠ NodeKind.integer →
        load_value i64Type t path =
          .error ("Expecting " ++ path ++ " to have type " ++
            i64Type.typeName ++ ", but it doesn't")) ∧
     (∀ node, at_path t path = some node →
        node.kind ≠ NodeKind.boolean →
        load_value boolType t path =
          .error ("Expecting " ++ path ++ " to have type " ++
            boolType.typeName ++ ", but it doesn't")) ∧
     (∀ node, at_path t path = some node →
        node.kind ≠ NodeKind.integer →
        load_value u32Type t path =
          .error ("Expecting " ++ path ++ " to have type " ++
            u32Type.typeName ++ ", but it doesn't")) ∧
     (∀ node, at_path t path = some node →
        node.kind ≠ NodeKind.integer →
        load_value i32Type t path =
          .error ("Expecting " ++ path ++ " to have type " ++
            i32Type.typeName ++ ", but it doesn't"))) ∧
    ((∀ n, at_path t path = some (Node.integer n) →
        (n < 0 ∨ 4294967296 ≤ n) →
        load_value u32Type t path =
          .error ("Expecting " ++ path ++ " to have type " ++
            u32Type.typeName ++ ", but it doesn't")) ∧
     (∀ n, at_path t path = some (Node.integer n) →
        (n < -2147483648 ∨ 2147483648 ≤ n) →
        load_value i32Type t path =
          .error ("Expecting " ++ path ++ " to have type " ++
            i32Type.typeName ++ ", but it doesn't"))) := by
  refine ⟨?_, ⟨?_, ?_, ?_, ?_, ?_⟩, ⟨?_, ?_, ?_, ?_, ?_⟩, ?_, ?_⟩
  · intro h
    refine ⟨?_, ?_, ?_, ?_, ?_⟩ <;> simp [load_value, validate_variable, h]
  · intro s h
    simp [load_value, validate_variable, h, stringType]
  · intro n h
    simp [load_value, validate_variable, h, i64Type]
  · intro b h
    simp [load_value, validate_variable, h, boolType]
  · intro n h h1 h2
    simp [load_value, validate_variable, h, u32Type, h1, h2]
  · intro n h h1 h2
    simp [load_value, validate_variable, h, i32Type, h1, h2]
  · intro node h hk
    have hnone : stringType.fromNode node = none := by
      cases node <;> simp [stringType, Node.kind] at hk ⊢
    simp [load_value, validate_variable, h, hnone]
  · intro node h hk
    have hnone : i64Type.fromNode node = none := by
      cases node <;> simp [i64Type, Node.kind] at hk ⊢
    simp [load_value, validate_variable, h, hnone]
  · intro node h hk
    have hnone : boolType.fromNode node = none := by
      cases node <;> simp [boolType, Node.kind] at hk ⊢
    simp [load_value, validate_variable, h, hnone]
  · intro node h hk
    have hnone : u32Type.fromNode node = none := by
      cases node <;> simp [u32Type, Node.kind] at hk ⊢
    simp [load_value, validate_variable, h, hnone]
  · intro node h hk
    have hnone : i32Type.fromNode node = none := by
      cases node <;> simp [i32Type, Node.kind] at hk ⊢
    simp [load_value, validate_variable, h, hnone]
  · intro n h hout
    have hnone : u32Type.fromNode (Node.integer n) = none := by
      have : ¬(0 ≤ n ∧ n < 4294967296) := by omega
      simp [u32Type, this]
    simp [load_value, validate_variable, h, hnone]
  · intro n h hout
    have hnone : i32Type.fromNode (Node.integer n) = none := by
      have : ¬(-2147483648 ≤ n ∧ n < 2147483648) := by omega
      simp [i32Type, this]
    simp [load_value, validate_variable, h, hnone]

/-- Witness for C2 (amended): an in-range integer loads exactly through
`load_value<std::uint32_t>` and an out-of-range one fails with the
type-mismatch message. -/
theorem load_value_trichotomy_ranged_witness :
    load_value u32Type [("width", Node.integer 800)] "width" = .ok 800 ∧
    load_value u32Type [("width", Node.integer 4294967297)] "width" =
      .error ("Expecting " ++ "width" ++ " to have type " ++
        u32Type.typeName ++ ", but it doesn't") :=
  ⟨(load_value_trichotomy_ranged
      [("width", Node.integer 800)] "width").2.1.2.2.2.1 800 rfl
      (by decide) (by decide),
   (load_value_trichotomy_ranged
      [("width", Node.integer 4294967297)] "width").2.2.2.1 4294967297 rfl
      (by decide)⟩

/-- C3: once the chained value is a failure, running any further chain
of `and_then` and `map` steps returns that same failure unchanged, and
the result is independent of the step functions, which therefore can
never influence it. -/
theorem chain_failure_propagates :
    ∀ (α : Type) (msg : String) (steps : List (PipelineStep α)),
      run_chain (Except.error msg) steps = Except.error msg := by
  intro α msg steps
  induction steps with
  | nil => rfl
  | cons s steps ih =>
    have hstep : run_step (Except.error msg) s = Except.error msg := by
      cases s <;> rfl
    calc run_chain (Except.error msg) (s :: steps)
        = run_chain (run_step (Except.error msg) s) steps := rfl
      _ = run_chain (Except.error msg) steps := by rw [hstep]
      _ = Except.error msg := ih

/-- C4 counterexample: with names ["x", "y", "a"] and a table holding
only "a", the partition-based `parse_flags` reports the invalid names
as ["y", "x"], not in their original relative order ["x", "y"]. -/
theorem parse_flags_invalid_order_counterexample :
    (parse_flags_table ["x", "y", "a"] [("a", 1)]).invalid_names =
      ["y", "x"] ∧ ("y" :: "x" :: [] : List String) ≠ ["x", "y"] := by
  exact ⟨rfl, by decide⟩

/-- C4 amended: the invalid-name output of `parse_flags` is a
permutation of the case-folded names of N absent from F (a name
occurring twice invalid is reported twice), but its relative order is
not preserved: `std::ranges::partition` is not stable. -/
theorem parse_flags_invalid_names_perm :
    ∀ (N : List String) (F : FlagTable),
      (parse_flags_table N F).invalid_names.Perm
        ((N.map strlower).filter (fun n => !(find_flag F n).isSome)) := by
  intro N F
  simp only [parse_flags_table, parse_flags]
  exact (hoarePartition_spec _ _).2.2

/-- C5 (code bug): with the table {window: {title: "Game", width: 800,
height: 600}} and no flags key, the load_window pipeline fails with the
missing-variable error for "flags" — the flag-loading step requires the
array to exist — instead of succeeding with flags = 0 as the OPTIONAL
marking in the source documentation prescribes. -/
theorem load_window_missing_flags_fails :
    (load_window "window"
        [("window", Node.table
          [("title", Node.string "Game"),
           ("width", Node.integer 800),
           ("height", Node.integer 600)])]).1 =
      Except.error "Expected the variable flags to exist, but it doesn't" :=
  rfl

/-- C6 counterexample: `load_flags` writes both invalid names to the
sink; for the capacity-1 bounded sink of the claim the number written,
2, is not at most the capacity. -/
theorem load_flags_sink_bound_counterexample :
    (load_flags 32
        [("flags", Node.array
          [Node.string "bogus1", Node.string "bogus2",
           Node.string "video"])]
        "flags" [("video", 1)]).2 = ["bogus2", "bogus1"] ∧
    ¬((["bogus2", "bogus1"] : List String).length ≤ 1) :=
  ⟨rfl, by decide⟩

/-- C6 amended: `load_flags` copies the entire invalid-name output of
the parse into the sink with `std::ranges::copy`, with no
capacity-awareness: whenever the name array loads, the sequence written
is exactly the whole invalid-name list, so a bounded sink with smaller
remaining capacity is written past its capacity rather than gracefully
truncated. -/
theorem load_flags_writes_all_invalid :
    ∀ (mf : Nat) (t : Table) (path : String) (F : FlagTable)
      (names : List String),
      load_array strDec t path mf = .ok names →
      (load_flags mf t path F).2 =
        (parse_flags_table names F).invalid_names := by
  intro mf t path F names h
  simp [load_flags, h]

/-- Witness for C6 amended at a concrete single-name table. -/
theorem load_flags_writes_all_invalid_witness :
    (load_flags 32 [("flags", Node.array [Node.string "a"])]
        "flags" []).2 =
      (parse_flags_table ["a"] []).invalid_names :=
  load_flags_writes_all_invalid 32
    [("flags", Node.array [Node.string "a"])] "flags" [] ["a"] rfl

/-- C7: for an array node at a valid path, `load_array` into caller
storage of capacity c succeeds and writes all c elements when the array
has exactly c elements decodable to the target type, and fails when it
has c + 1 elements, with the message naming the path, the capacity c
and the actual length c + 1. -/
theorem load_array_capacity_boundary {α : Type} (dec : Node → Option α)
    (t : Table) (path : String) (c : Nat) (elems : List Node)
    (hpath : at_path t path = some (Node.array elems)) :
    (elems.length = c → (∀ e ∈ elems, (dec e).isSome) →
      load_array dec t path c = .ok (elems.filterMap dec) ∧
      (elems.filterMap dec).length = c) ∧
    (elems.length = c + 1 →
      load_array dec t path c =
        .error (path ++ " can have at most " ++ toString c ++
          " items, but it has " ++ toString (c + 1))) := by
  constructor
  · intro hlen hall
    have hnot : ¬(elems.length > c) := by omega
    constructor
    · simp [load_array, validate_variable, hpath, hnot]
    · rw [filterMap_length_of_isSome dec elems hall]
      exact hlen
  · intro hlen
    have hgt : elems.length > c := by omega
    simp [load_array, validate_variable, hpath, hgt, hlen]

/-- Witness for C7 at a two-element string array with capacity 2 and a
three-element one with the same capacity. -/
theorem load_array_capacity_boundary_witness :
    (load_array strDec
        [("flags", Node.array [Node.string "a", Node.string "b"])]
        "flags" 2 = .ok ["a", "b"] ∧
      (["a", "b"] : List String).length = 2) ∧
    load_array strDec
        [("flags", Node.array
          [Node.string "a", Node.string "b", Node.string "c"])]
        "flags" 2 =
      .error ("flags" ++ " can have at most " ++ toString 2 ++
        " items, but it has " ++ toString 3) :=
  ⟨(load_array_capacity_boundary strDec
      [("flags", Node.array [Node.string "a", Node.string "b"])]
      "flags" 2 [Node.string "a", Node.string "b"] rfl).1 rfl
      (by decide),
   (load_array_capacity_boundary strDec
      [("flags", Node.array
        [Node.string "a", Node.string "b", Node.string "c"])]
      "flags" 2 [Node.string "a", Node.string "b", Node.string "c"]
      rfl).2 rfl⟩

/-- C8 counterexample: loading strings from the mixed array
["a", 1] within capacity succeeds (with only the string written)
instead of failing with a heterogeneity error. -/
theorem load_array_heterogeneous_counterexample :
    load_array strDec
        [("names", Node.array [Node.string "a", Node.integer 1])]
        "names" 2 =
      .ok ["a"] :=
  rfl

/-- C8 amended: `load_array` performs no homogeneity check (the check
in the source is commented out): whenever the path resolves to an array
within capacity, it succeeds, writing exactly the elements whose kind
matches the target type and skipping the rest. -/
theorem load_array_no_homogeneity_check :
    ∀ {α : Type} (dec : Node → Option α) (t : Table) (path : String)
      (c : Nat) (elems : List Node),
      at_path t path = some (Node.array elems) → elems.length ≤ c →
      load_array dec t path c = .ok (elems.filterMap dec) := by
  intro α dec t path c elems hpath hlen
  have hnot : ¬(elems.length > c) := by omega
  simp [load_array, validate_variable, hpath, hnot]

/-- Witness for C8 amended at the mixed two-element array. -/
theorem load_array_no_homogeneity_check_witness :
    load_array strDec
        [("names", Node.array [Node.string "a", Node.integer 1])]
        "names" 2 =
      .ok (([Node.string "a", Node.integer 1]).filterMap strDec) :=
  load_array_no_homogeneity_check strDec
    [("names", Node.array [Node.string "a", Node.integer 1])]
    "names" 2 [Node.string "a", Node.integer 1] rfl (by decide)

/-- C9: whenever both window.x and window.y are present integer nodes
(and the remaining required fields allow the load to reach window
creation), `make_window_from_config` hands the creation call a y
position equal to the integer stored at window.x — the y coordinate is
read from the x key. -/
theorem make_window_reads_x_for_y :
    ∀ (cfg : String) (t : Table) (w : Table) (title : String)
      (iw ihv nx ny : Int),
      lookup_key t "window" = some (Node.table w) →
      at_path t "window.flags" = none →
      lookup_key w "title" = some (Node.string title) →
      lookup_key w "width" = some (Node.integer iw) →
      lookup_key w "height" = some (Node.integer ihv) →
      lookup_key w "x" = some (Node.integer nx) →
      lookup_key w "y" = some (Node.integer ny) →
      -2147483648 ≤ nx → nx < 2147483648 →
      make_window_from_config cfg t =
        .ok { title := title, x := nx, y := nx,
              width := to_uint32 iw, height := to_uint32 ihv,
              flags := 0 } := by
  intro cfg t w title iw ihv nx ny hw hf ht hwd hh hx hy hlo hhi
  have hmod : (nx + 2147483648) % 4294967296 = nx + 2147483648 :=
    Int.emod_eq_of_lt (by omega) (by omega)
  have hwrap : to_int32 nx = nx := by
    rw [to_int32, hmod]
    omega
  simp [make_window_from_config, load_window_flags_cfg, load_flag_names,
    hf, parse_flags_vec, hw, ht, hwd, hh, hx, hy, as_integer_get, hwrap]

/-- Witness for C9: with x = 100 and y = 200 in the config, the window
is created with y = 100. -/
theorem make_window_reads_x_for_y_witness :
    make_window_from_config "config.toml"
        [("window", Node.table
          [("title", Node.string "Game"), ("width", Node.integer 800),
           ("height", Node.integer 600), ("x", Node.integer 100),
           ("y", Node.integer 200)])] =
      .ok { title := "Game", x := 100, y := 100, width := 800,
            height := 600, flags := 0 } := by
  have h := make_window_reads_x_for_y "config.toml"
    [("window", Node.table
      [("title", Node.string "Game"), ("width", Node.integer 800),
       ("height", Node.integer 600), ("x", Node.integer 100),
       ("y", Node.integer 200)])]
    [("title", Node.string "Game"), ("width", Node.integer 800),
     ("height", Node.integer 600), ("x", Node.integer 100),
     ("y", Node.integer 200)]
    "Game" 800 600 100 200 rfl rfl rfl rfl rfl rfl rfl
    (by decide) (by decide)
  exact h

/-- C10: a successful `load_value<SDL_Color>` produces each channel by
`static_cast<std::uint8_t>` from the stored 64-bit integer, i.e.
reduced modulo 2^8; out-of-range stored integers do not fail the
load. -/
theorem load_color_casts_mod256 :
    ∀ (t : Table) (path : String) (r g b a : Int),
      at_path t path = some (Node.array
        [Node.integer r, Node.integer g, Node.integer b,
         Node.integer a]) →
      load_value_SDL_Color t path =
        .ok { r := (r % 256).toNat, g := (g % 256).toNat,
              b := (b % 256).toNat, a := (a % 256).toNat } := by
  intro t path r g b a h
  simp [load_value_SDL_Color, load_array, validate_variable, h, u8Dec]

/-- Witness for C10: loading from [300, 0, 0, 255] succeeds with the
red channel equal to 44. -/
theorem load_color_casts_mod256_witness :
    load_value_SDL_Color
        [("draw", Node.table [("color", Node.array
          [Node.integer 300, Node.integer 0, Node.integer 0,
           Node.integer 255])])] "draw.color" =
      .ok { r := 44, g := 0, b := 0, a := 255 } :=
  load_color_casts_mod256
    [("draw", Node.table [("color", Node.array
      [Node.integer 300, Node.integer 0, Node.integer 0,
       Node.integer 255])])] "draw.color" 300 0 0 255 rfl

end Raisin
